import Mathlib

/-!
Shallow embedding of `git-around.py` (batch git housekeeping tool).

The program resolves a YAML configuration into a list of per-repository
plans (`RepoConfig`), then either runs housekeeping tasks per repository
(`GitAround.run` / `_process_repo` / `_run_command`) or reports stale
repositories (`_report_stale`).

External collaborators (filesystem, `fnmatch` glob matching, the
subprocess layer and the `git log` timestamp query) are modelled as
explicit parameters; the control flow, orderings, conditions and error
propagation are translated directly from the source.  Timestamps are
modelled as integral seconds (`Int`); the Python code uses float seconds
from `time.time()`, but the classification it performs compares the
integer commit timestamp with `now - days*86400`, which the integral
model captures exactly at whole-second inputs.
-/

namespace GitAroundModel

/-- A filesystem path, as a list of components (pathlib `Path.parts`,
without the root anchor). -/
abbrev FsPath := List String

/-- `Path.parent`: drop the final component. -/
def pathParent (p : FsPath) : FsPath := p.dropLast

/-- `Path.name`: the final component (empty for the empty path). -/
def pathName (p : FsPath) : String := p.getLastD ""

/-- Split a character list on a separator character (used to turn a raw
path-specifier string into components). -/
def splitOnChar (sep : Char) : List Char → List (List Char)
  | [] => [[]]
  | c :: cs =>
    let rest := splitOnChar sep cs
    if c = sep then [] :: rest
    else
      match rest with
      | r :: rs => (c :: r) :: rs
      | [] => [[c]]

/-- Components of a raw path-specifier string: split on `/` and drop
empty components (the root anchor and doubled slashes). -/
def pathComps (raw : String) : List String :=
  ((splitOnChar '/' raw.toList).map (fun l => String.mk l)).filter (fun s => s ≠ "")

/-- `Path(raw).expanduser()`: a leading `~` component is replaced by the
home directory. -/
def expanduser (home : FsPath) (raw : String) : FsPath :=
  match pathComps raw with
  | "~" :: rest => home ++ rest
  | cs => cs

/-- The filesystem capability the program consumes: directory test,
existence test, directory listing (entry names), symlink resolution and
the home directory. -/
structure FS where
  isDir : FsPath → Bool
  pathExists : FsPath → Bool
  iterdir : FsPath → List String
  resolve : FsPath → FsPath
  home : FsPath

/-- `any(ch in raw_path for ch in ['*', '?', '['])` from
`load_from_file`: does the raw specifier contain a glob metacharacter? -/
def hasGlobChar (raw : String) : Bool :=
  ['*', '?', '['].any (fun ch => raw.toList.contains ch)

/-- Path resolution of one config entry (`load_from_file`, lines 67-77):
glob specifiers are matched against the entries of the parent directory
(falling back to home when the parent does not exist), keeping entries
whose name matches the pattern and which contain a `.git` directory;
non-glob specifiers resolve to themselves when they are directories.
`fm` is the `fnmatch.fnmatch` collaborator. -/
def resolveEntryPaths (fs : FS) (fm : String → String → Bool) (raw : String) : List FsPath :=
  let expanded := expanduser fs.home raw
  if hasGlobChar raw then
    let base := if fs.pathExists (pathParent expanded) then pathParent expanded else fs.home
    let pattern := pathName expanded
    ((fs.iterdir base).filter
        (fun n => fm n pattern && fs.isDir (base ++ [n, ".git"]))).map
      (fun n => fs.resolve (base ++ [n]))
  else
    if fs.isDir expanded then [fs.resolve expanded] else []

/-- `RepoConfig`: one resolved repository plan, with the defaults of the
Python constructor. -/
structure RepoConfig where
  path : FsPath
  auto_pull : Bool := true
  auto_push : Bool := false
  clean : Bool := false
  update_submodules : Bool := false
  commands : List String := []
deriving DecidableEq, Repr

/-- One raw `repos` list entry of the parsed YAML document: each key is
present or absent (`entry.get`). -/
structure YEntry where
  path : Option String := none
  auto_pull : Option Bool := none
  auto_push : Option Bool := none
  clean : Option Bool := none
  update_submodules : Option Bool := none
  commands : Option (List String) := none
deriving DecidableEq, Repr

/-- The value `yaml.safe_load` produced: `None` (empty document) or a
mapping whose `repos` key is present or absent. -/
inductive YamlDoc where
  | nullDoc
  | dict (repos : Option (List YEntry))
deriving DecidableEq, Repr

/-- Outcome of the YAML parse step. -/
inductive ParseOutcome where
  | yamlError
  | parsed (doc : YamlDoc)
deriving DecidableEq, Repr

/-- The Python exceptions the loader can let escape. -/
inductive PyExn where
  | attributeError
  | typeError
deriving DecidableEq, Repr

/-- Overall outcome of `GitAroundConfig.load_from_file`. -/
inductive LoadOutcome where
  | fatalExit (code : Nat)
  | uncaught (e : PyExn)
  | ok (repos : List RepoConfig)
deriving DecidableEq, Repr

/-- The entry loop of `load_from_file` (lines 64-89): each entry's raw
path is resolved and one `RepoConfig` is built per matched path, with
`entry.get` defaults.  An entry without a `path` key makes
`any(ch in raw_path ...)` raise `TypeError` (`raw_path` is `None`). -/
def buildRepos (fs : FS) (fm : String → String → Bool) :
    List YEntry → Except PyExn (List RepoConfig)
  | [] => .ok []
  | e :: rest =>
    match e.path with
    | none => .error .typeError
    | some raw =>
      let plans := (resolveEntryPaths fs fm raw).map (fun p =>
        { path := p
          auto_pull := e.auto_pull.getD true
          auto_push := e.auto_push.getD false
          clean := e.clean.getD false
          update_submodules := e.update_submodules.getD false
          commands := e.commands.getD [] })
      match buildRepos fs fm rest with
      | .error ex => .error ex
      | .ok rs => .ok (plans ++ rs)

/-- `GitAroundConfig.load_from_file` (lines 52-89): missing file and
YAML parse error exit cleanly via `sys.exit(1)`; a `None` document makes
`data.get('repos', [])` raise `AttributeError`; otherwise the entry loop
runs. -/
def load_from_file (fs : FS) (fm : String → String → Bool)
    (fileExists : Bool) (parse : ParseOutcome) : LoadOutcome :=
  if fileExists = false then .fatalExit 1
  else
    match parse with
    | .yamlError => .fatalExit 1
    | .parsed .nullDoc => .uncaught .attributeError
    | .parsed (.dict reposKey) =>
      match buildRepos fs fm (reposKey.getD []) with
      | .error ex => .uncaught ex
      | .ok rs => .ok rs

/-- A command handed to the subprocess layer: structured argument vector
(`shell=False`) or shell string (`shell=True`). -/
inductive Cmd where
  | args (argv : List String)
  | sh (line : String)
deriving DecidableEq, Repr

/-- What `subprocess.run` returned when the process could be started. -/
structure ProcResult where
  returncode : Int
  stdoutText : String
  stderrText : String
deriving DecidableEq, Repr

/-- Outcome of attempting to start an external command: the process ran
to completion, or launching it raised (e.g. `FileNotFoundError`). -/
inductive LaunchOutcome where
  | launched (res : ProcResult)
  | launchFailure
deriving DecidableEq, Repr

/-- The subprocess collaborator: what launching a given command in a
given working directory does. -/
def Env := Cmd → FsPath → LaunchOutcome

/-- An uncaught Python launch exception, identified by the command and
working directory it was raised for. -/
structure LaunchErr where
  cmd : Cmd
  cwd : FsPath
deriving DecidableEq, Repr

/-- Observable events of one run: dry-run descriptions, real subprocess
invocations, failure reports with captured stderr, the missing-path
warning of `run`, and the stale/query-warning reports of
`_report_stale`. -/
inductive Event where
  | describe (cmd : Cmd) (cwd : FsPath)
  | invoke (cmd : Cmd) (cwd : FsPath)
  | cmdFailed (cmd : Cmd) (stderrText : String)
  | pathWarning (p : FsPath)
  | staleReport (p : FsPath)
  | staleQueryWarning (p : FsPath)
deriving DecidableEq, Repr

/-- Sequence two traced computations, propagating an uncaught exception:
the second runs only when the first finished normally. -/
def seqE (a b : List Event × Option LaunchErr) : List Event × Option LaunchErr :=
  match a with
  | (es, some ex) => (es, some ex)
  | (es, none) => (es ++ b.1, b.2)

/-- `GitAround._run_command` (lines 135-146): under dry-run, only a
description is logged; otherwise `subprocess.run` is invoked — a launch
failure is NOT caught and propagates, a non-zero exit is logged with the
captured stderr, and nothing is raised for it. -/
def runCmd (dryRun : Bool) (env : Env) (cmd : Cmd) (cwd : FsPath) :
    List Event × Option LaunchErr :=
  if dryRun then ([Event.describe cmd cwd], none)
  else
    match env cmd cwd with
    | .launchFailure => ([Event.invoke cmd cwd], some ⟨cmd, cwd⟩)
    | .launched res =>
      (Event.invoke cmd cwd ::
        (if res.returncode ≠ 0 then [Event.cmdFailed cmd res.stderrText] else []), none)

/-- The `git_tasks` list of `_process_repo` (lines 122-126): each
built-in git task paired with its enabling flag, in source order. -/
def gitTasks (r : RepoConfig) : List (List String × Bool) :=
  [(["git", "pull"], r.auto_pull),
   (["git", "clean", "-fd"], r.clean),
   (["git", "submodule", "update", "--init", "--recursive"], r.update_submodules)]

/-- First loop of `_process_repo`: run each enabled built-in git task. -/
def runGitTasks (dryRun : Bool) (env : Env) (cwd : FsPath) :
    List (List String × Bool) → List Event × Option LaunchErr
  | [] => ([], none)
  | (argv, enabled) :: rest =>
    if enabled then
      seqE (runCmd dryRun env (Cmd.args argv) cwd) (runGitTasks dryRun env cwd rest)
    else runGitTasks dryRun env cwd rest

/-- Second loop of `_process_repo`: run each extra shell command in list
order. -/
def runShellCmds (dryRun : Bool) (env : Env) (cwd : FsPath) :
    List String → List Event × Option LaunchErr
  | [] => ([], none)
  | c :: rest =>
    seqE (runCmd dryRun env (Cmd.sh c) cwd) (runShellCmds dryRun env cwd rest)

/-- `GitAround._process_repo` (lines 120-133): enabled git tasks, then
extra shell commands, then `git push` if `auto_push`. -/
def processRepo (dryRun : Bool) (env : Env) (r : RepoConfig) :
    List Event × Option LaunchErr :=
  seqE (runGitTasks dryRun env r.path (gitTasks r))
    (seqE (runShellCmds dryRun env r.path r.commands)
      (if r.auto_push then runCmd dryRun env (Cmd.args ["git", "push"]) r.path
       else ([], none)))

/-- The housekeeping loop of `GitAround.run` (lines 112-118): warn and
skip plans whose path is not a directory, process the rest; an uncaught
exception from a repository aborts the remaining iterations. -/
def runRepos (dryRun : Bool) (env : Env) (fs : FS) :
    List RepoConfig → List Event × Option LaunchErr
  | [] => ([], none)
  | r :: rest =>
    if fs.isDir r.path then
      seqE (processRepo dryRun env r) (runRepos dryRun env fs rest)
    else
      seqE ([Event.pathWarning r.path], none) (runRepos dryRun env fs rest)

/-- The `git log -1 --format=%ct` query command of `_report_stale`. -/
def gitLogCmd : Cmd := Cmd.args ["git", "log", "-1", "--format=%ct"]

/-- `GitAround._report_stale` (lines 148-167): for each plan whose path
is a directory, invoke the last-commit query via `subprocess` (with no
dry-run check); on success flag the repository when the timestamp is
strictly below `now - stale_days*86400` or when `update_submodules` is
set and `.gitmodules` exists; on query failure warn and move on.
`gitLog` abstracts the query result (`none` = `CalledProcessError`). -/
def reportStale (now staleDays : Int) (fs : FS) (gitLog : FsPath → Option Int)
    (repos : List RepoConfig) : List Event :=
  let cutoff := now - staleDays * 86400
  repos.flatMap (fun r =>
    if fs.isDir r.path then
      Event.invoke gitLogCmd r.path ::
        (match gitLog r.path with
         | some last =>
           if last < cutoff ∨
               (r.update_submodules && fs.pathExists (r.path ++ [".gitmodules"])) = true then
             [Event.staleReport r.path]
           else []
         | none => [Event.staleQueryWarning r.path])
    else [])

/-- `GitAround.run` (lines 108-118): a present staleness threshold
selects `_report_stale` (which ignores the dry-run flag); otherwise the
housekeeping loop runs. -/
def gitRun (dryRun : Bool) (staleDays : Option Int) (now : Int) (env : Env)
    (gitLog : FsPath → Option Int) (fs : FS) (repos : List RepoConfig) :
    List Event × Option LaunchErr :=
  match staleDays with
  | some d => (reportStale now d fs gitLog repos, none)
  | none => runRepos dryRun env fs repos

/-- The task sequence the spec prescribes for one plan: pull (if
`autoPull`), clean (if `clean`), submodule update (if
`updateSubmodules`), each extra command in list order, push (if
`autoPush`). -/
def orderedTasks (r : RepoConfig) : List Cmd :=
  (if r.auto_pull then [Cmd.args ["git", "pull"]] else []) ++
  (if r.clean then [Cmd.args ["git", "clean", "-fd"]] else []) ++
  (if r.update_submodules then
    [Cmd.args ["git", "submodule", "update", "--init", "--recursive"]] else []) ++
  r.commands.map Cmd.sh ++
  (if r.auto_push then [Cmd.args ["git", "push"]] else [])

/-- The trace one live (non-dry-run) command attempt produces. -/
def liveTrace (env : Env) (cmd : Cmd) (cwd : FsPath) : List Event :=
  match env cmd cwd with
  | .launchFailure => [Event.invoke cmd cwd]
  | .launched res =>
    Event.invoke cmd cwd ::
      (if res.returncode ≠ 0 then [Event.cmdFailed cmd res.stderrText] else [])

/-- The trace one repository contributes to a live run in which every
command launches. -/
def liveRepoTrace (env : Env) (fs : FS) (r : RepoConfig) : List Event :=
  if fs.isDir r.path then
    (orderedTasks r).flatMap (fun c => liveTrace env c r.path)
  else [Event.pathWarning r.path]

/-- An environment in which every command can be started (no
`FileNotFoundError`-style launch failures). -/
def LaunchSafe (env : Env) : Prop :=
  ∀ c w, env c w ≠ LaunchOutcome.launchFailure

/-- Project an event to the real subprocess invocation it records. -/
def eventInvoked : Event → Option (Cmd × FsPath)
  | .invoke c w => some (c, w)
  | _ => none

/-- The real subprocess invocations of a trace, in order. -/
def invokedCmds (es : List Event) : List (Cmd × FsPath) :=
  es.filterMap eventInvoked

/-- Project an event to the dry-run description it records. -/
def eventDescribed : Event → Option (Cmd × FsPath)
  | .describe c w => some (c, w)
  | _ => none

/-- The dry-run descriptions of a trace, in order. -/
def describedCmds (es : List Event) : List (Cmd × FsPath) :=
  es.filterMap eventDescribed

/-- Fixture: a filesystem with no directories. -/
def fsNone : FS :=
  { isDir := fun _ => false, pathExists := fun _ => false,
    iterdir := fun _ => [], resolve := id, home := [] }

/-- Fixture: a filesystem with the single repository directory `repo`. -/
def fsRepo : FS :=
  { isDir := fun p => p = ["repo"], pathExists := fun _ => false,
    iterdir := fun _ => [], resolve := id, home := [] }

/-- Fixture: like `fsRepo`, with a `.gitmodules` file in the repository. -/
def fsRepoSub : FS :=
  { isDir := fun p => p = ["repo"], pathExists := fun p => p = ["repo", ".gitmodules"],
    iterdir := fun _ => [], resolve := id, home := [] }

/-- Fixture: two repository directories `repo` and `repo2`. -/
def fsTwo : FS :=
  { isDir := fun p => p = ["repo"] ∨ p = ["repo2"], pathExists := fun _ => false,
    iterdir := fun _ => [], resolve := id, home := [] }

/-- Fixture: `home/dev` contains `gp1` (a repository), `gp2` (matching
the pattern but not a repository) and `other`. -/
def fsGlob : FS :=
  { isDir := fun p => p = ["home", "dev"] ∨ p = ["home", "dev", "gp1"] ∨
      p = ["home", "dev", "gp1", ".git"],
    pathExists := fun p => p = ["home", "dev"],
    iterdir := fun p => if p = ["home", "dev"] then ["gp1", "gp2", "other"] else [],
    resolve := id, home := ["home"] }

/-- Fixture: `proj` is a directory with no `.git` inside. -/
def fsProj : FS :=
  { isDir := fun p => p = ["proj"], pathExists := fun _ => true,
    iterdir := fun _ => [], resolve := id, home := ["home"] }

/-- Fixture: every command launches and exits 0. -/
def envOk : Env := fun _ _ => LaunchOutcome.launched ⟨0, "", ""⟩

/-- Fixture: `git pull` exits 1 with stderr output, everything else
exits 0. -/
def envPullErr : Env := fun c _ =>
  if c = Cmd.args ["git", "pull"] then LaunchOutcome.launched ⟨1, "", "pull: conflict"⟩
  else LaunchOutcome.launched ⟨0, "", ""⟩

/-- Fixture: launching `git pull` fails (executable missing);
everything else exits 0. -/
def envPullGone : Env := fun c _ =>
  if c = Cmd.args ["git", "pull"] then LaunchOutcome.launchFailure
  else LaunchOutcome.launched ⟨0, "", ""⟩

/-- Fixture: every repository's last commit is at time 0. -/
def glZero : FsPath → Option Int := fun _ => some 0

/-- Fixture: a glob matcher recognising the pattern string `gp*`
against the two names that start with `gp`. -/
def fmGp : String → String → Bool := fun n pat =>
  pat = "gp*" && (n = "gp1" || n = "gp2")

/-- Fixture: a matcher that matches nothing. -/
def fmNone : String → String → Bool := fun _ _ => false

/-- Fixture: a plan with all defaults. -/
def rDefault : RepoConfig := { path := ["repo"] }

/-- Fixture: a second all-defaults plan. -/
def rRepo2 : RepoConfig := { path := ["repo2"] }

/-- Fixture: pull and clean enabled. -/
def rPullClean : RepoConfig := { path := ["repo"], clean := true }

/-- Fixture: every task enabled plus two extra commands. -/
def rAll : RepoConfig :=
  { path := ["repo"], auto_pull := true, auto_push := true, clean := true,
    update_submodules := true, commands := ["make build", "make check"] }

/-- Fixture: submodule tracking enabled. -/
def rSub : RepoConfig := { path := ["repo"], update_submodules := true }

/-- Fixture: the plan at the non-repository directory `proj`. -/
def rProj : RepoConfig := { path := ["proj"] }

/-- The directory searched by the glob branch of `load_from_file`: the
specifier's parent directory, or home when that parent does not exist
(line 70). -/
def globSearchRoot (fs : FS) (raw : String) : FsPath :=
  if fs.pathExists (pathParent (expanduser fs.home raw)) then
    pathParent (expanduser fs.home raw)
  else fs.home

theorem seqE_ok (es : List Event) (b : List Event × Option LaunchErr) :
    seqE (es, none) b = (es ++ b.1, b.2) := rfl

theorem seqE_err (es : List Event) (ex : LaunchErr) (b : List Event × Option LaunchErr) :
    seqE (es, some ex) b = (es, some ex) := rfl

theorem runCmd_dry (env : Env) (c : Cmd) (w : FsPath) :
    runCmd true env c w = ([Event.describe c w], none) := rfl

theorem runCmd_live (env : Env) (h : LaunchSafe env) (c : Cmd) (w : FsPath) :
    runCmd false env c w = (liveTrace env c w, none) := by
  unfold runCmd liveTrace
  cases he : env c w with
  | launchFailure => exact absurd he (h c w)
  | launched res => simp

theorem runGitTasks_dry (env : Env) (w : FsPath) (ts : List (List String × Bool)) :
    runGitTasks true env w ts =
      ((ts.filter (fun t => t.2)).map (fun t => Event.describe (Cmd.args t.1) w), none) := by
  induction ts with
  | nil => rfl
  | cons t rest ih =>
    obtain ⟨argv, enabled⟩ := t
    cases enabled <;> simp [runGitTasks, runCmd_dry, ih, seqE_ok, List.filter_cons]

theorem runShellCmds_dry (env : Env) (w : FsPath) (cs : List String) :
    runShellCmds true env w cs =
      (cs.map (fun c => Event.describe (Cmd.sh c) w), none) := by
  induction cs with
  | nil => rfl
  | cons c rest ih => simp [runShellCmds, runCmd_dry, ih, seqE_ok]

theorem runGitTasks_live (env : Env) (h : LaunchSafe env) (w : FsPath)
    (ts : List (List String × Bool)) :
    runGitTasks false env w ts =
      ((ts.filter (fun t => t.2)).flatMap (fun t => liveTrace env (Cmd.args t.1) w), none) := by
  induction ts with
  | nil => rfl
  | cons t rest ih =>
    obtain ⟨argv, enabled⟩ := t
    cases enabled <;> simp [runGitTasks, runCmd_live env h, ih, seqE_ok, List.filter_cons]

theorem runShellCmds_live (env : Env) (h : LaunchSafe env) (w : FsPath) (cs : List String) :
    runShellCmds false env w cs =
      (cs.flatMap (fun c => liveTrace env (Cmd.sh c) w), none) := by
  induction cs with
  | nil => rfl
  | cons c rest ih => simp [runShellCmds, runCmd_live env h, ih, seqE_ok]

theorem orderedTasks_eq (r : RepoConfig) :
    orderedTasks r =
      ((gitTasks r).filter (fun t => t.2)).map (fun t => Cmd.args t.1) ++
        r.commands.map Cmd.sh ++
        (if r.auto_push then [Cmd.args ["git", "push"]] else []) := by
  cases hp : r.auto_pull <;> cases hc : r.clean <;> cases hs : r.update_submodules <;>
    simp [orderedTasks, gitTasks, hp, hc, hs, List.filter_cons]

theorem processRepo_dry (env : Env) (r : RepoConfig) :
    processRepo true env r =
      ((orderedTasks r).map (fun c => Event.describe c r.path), none) := by
  rw [processRepo, runGitTasks_dry, runShellCmds_dry]
  cases hp : r.auto_push <;>
    simp [hp, runCmd_dry, seqE_ok, orderedTasks_eq, hp, List.map_map, Function.comp_def]

theorem processRepo_live (env : Env) (h : LaunchSafe env) (r : RepoConfig) :
    processRepo false env r =
      ((orderedTasks r).flatMap (fun c => liveTrace env c r.path), none) := by
  rw [processRepo, runGitTasks_live env h, runShellCmds_live env h]
  cases hp : r.auto_push <;>
    simp [hp, runCmd_live env h, seqE_ok, orderedTasks_eq, List.flatMap_append,
      List.flatMap_map, Function.comp_def]

theorem runRepos_dry (env : Env) (fs : FS) (repos : List RepoConfig) :
    runRepos true env fs repos =
      (repos.flatMap (fun r =>
        if fs.isDir r.path then (orderedTasks r).map (fun c => Event.describe c r.path)
        else [Event.pathWarning r.path]), none) := by
  induction repos with
  | nil => rfl
  | cons r rest ih =>
    by_cases hd : fs.isDir r.path <;>
      simp [runRepos, hd, processRepo_dry, ih, seqE_ok]

theorem runRepos_live (env : Env) (h : LaunchSafe env) (fs : FS) (repos : List RepoConfig) :
    runRepos false env fs repos = (repos.flatMap (liveRepoTrace env fs), none) := by
  induction repos with
  | nil => rfl
  | cons r rest ih =>
    by_cases hd : fs.isDir r.path <;>
      simp [runRepos, hd, processRepo_live env h, ih, seqE_ok, liveRepoTrace]
theorem invokedCmds_append (a b : List Event) :
    invokedCmds (a ++ b) = invokedCmds a ++ invokedCmds b :=
  List.filterMap_append a b eventInvoked

theorem describedCmds_append (a b : List Event) :
    describedCmds (a ++ b) = describedCmds a ++ describedCmds b :=
  List.filterMap_append a b eventDescribed

theorem invokedCmds_liveTrace (env : Env) (c : Cmd) (w : FsPath) :
    invokedCmds (liveTrace env c w) = [(c, w)] := by
  unfold liveTrace
  cases env c w with
  | launchFailure => rfl
  | launched res =>
    by_cases h : res.returncode ≠ 0 <;> simp [h, invokedCmds, eventInvoked]

theorem invokedCmds_flatMap_liveTrace (env : Env) (w : FsPath) (cs : List Cmd) :
    invokedCmds (cs.flatMap (fun c => liveTrace env c w)) = cs.map (fun c => (c, w)) := by
  induction cs with
  | nil => rfl
  | cons c rest ih =>
    rw [List.flatMap_cons, invokedCmds_append, invokedCmds_liveTrace, ih, List.map_cons]
    rfl

theorem invokedCmds_map_describe (w : FsPath) (cs : List Cmd) :
    invokedCmds (cs.map (fun c => Event.describe c w)) = [] := by
  induction cs with
  | nil => rfl
  | cons c rest ih =>
    rw [List.map_cons, invokedCmds, List.filterMap_cons]
    exact ih

theorem describedCmds_map_describe (w : FsPath) (cs : List Cmd) :
    describedCmds (cs.map (fun c => Event.describe c w)) = cs.map (fun c => (c, w)) := by
  induction cs with
  | nil => rfl
  | cons c rest ih =>
    rw [List.map_cons, describedCmds, List.filterMap_cons]
    rw [show eventDescribed (Event.describe c w) = some (c, w) from rfl]
    rw [show describedCmds (List.map (fun c => Event.describe c w) rest)
          = List.filterMap eventDescribed (List.map (fun c => Event.describe c w) rest) from rfl] at ih
    rw [ih, List.map_cons]

theorem describedCmds_dryRepos (env : Env) (fs : FS) (repos : List RepoConfig) :
    describedCmds (runRepos true env fs repos).1 =
      repos.flatMap (fun r =>
        if fs.isDir r.path then (orderedTasks r).map (fun c => (c, r.path)) else []) := by
  rw [runRepos_dry]
  induction repos with
  | nil => rfl
  | cons r rest ih =>
    rw [List.flatMap_cons, List.flatMap_cons, describedCmds_append, ih]
    by_cases hd : fs.isDir r.path = true
    · rw [if_pos hd, if_pos hd, describedCmds_map_describe]
    · rw [if_neg hd, if_neg hd]
      rfl

theorem invokedCmds_liveRepos (env : Env) (h : LaunchSafe env) (fs : FS)
    (repos : List RepoConfig) :
    invokedCmds (runRepos false env fs repos).1 =
      repos.flatMap (fun r =>
        if fs.isDir r.path then (orderedTasks r).map (fun c => (c, r.path)) else []) := by
  rw [runRepos_live env h]
  induction repos with
  | nil => rfl
  | cons r rest ih =>
    rw [List.flatMap_cons, List.flatMap_cons, invokedCmds_append, ih]
    unfold liveRepoTrace
    by_cases hd : fs.isDir r.path = true
    · rw [if_pos hd, if_pos hd, invokedCmds_flatMap_liveTrace]
    · rw [if_neg hd, if_neg hd]
      rfl

theorem invokedCmds_dryRepos (env : Env) (fs : FS) (repos : List RepoConfig) :
    invokedCmds (runRepos true env fs repos).1 = [] := by
  rw [runRepos_dry]
  induction repos with
  | nil => rfl
  | cons r rest ih =>
    rw [List.flatMap_cons, invokedCmds_append, ih]
    by_cases hd : fs.isDir r.path = true
    · rw [if_pos hd, invokedCmds_map_describe]
      rfl
    · rw [if_neg hd]
      rfl
theorem launchSafe_envOk : LaunchSafe envOk := fun _ _ h => LaunchOutcome.noConfusion h

theorem launchSafe_envPullErr : LaunchSafe envPullErr := by
  intro c w
  unfold envPullErr
  split <;> exact fun h => LaunchOutcome.noConfusion h

/-- C1: for every plan whose path is a directory at processing time, a
live housekeeping run in which every command launches executes exactly
the sequence pull (if autoPull), clean (if clean), submodule update (if
updateSubmodules), each extra command in list order, then push (if
autoPush) — the fixed order of `orderedTasks`, so push never precedes
any other enabled task. -/
theorem c1_fixed_task_order (env : Env) (fs : FS) (r : RepoConfig)
    (hdir : fs.isDir r.path = true) (hsafe : LaunchSafe env) :
    invokedCmds (runRepos false env fs [r]).1 =
      (orderedTasks r).map (fun c => (c, r.path)) := by
  rw [invokedCmds_liveRepos env hsafe, List.flatMap_cons, if_pos hdir]
  simp

theorem c1_fixed_task_order_witness :
    fsRepo.isDir rAll.path = true ∧ LaunchSafe envOk ∧
      invokedCmds (runRepos false envOk fsRepo [rAll]).1 =
        (orderedTasks rAll).map (fun c => (c, rAll.path)) :=
  ⟨by decide, launchSafe_envOk,
   c1_fixed_task_order envOk fsRepo rAll (by decide) launchSafe_envOk⟩

/-- C2 (amended): in housekeeping mode under dry-run no subprocess is
invoked and the described task sequence equals the one a live run (in
which every command launches) invokes, in the same order; in staleness
mode the dry-run flag has no effect, so the last-commit query
subprocess still runs there. -/
theorem c2_dry_run_semantics (env : Env) (fs : FS) (repos : List RepoConfig)
    (hsafe : LaunchSafe env) :
    invokedCmds (runRepos true env fs repos).1 = [] ∧
      describedCmds (runRepos true env fs repos).1 =
        invokedCmds (runRepos false env fs repos).1 ∧
      ∀ d now gitLog, gitRun true (some d) now env gitLog fs repos =
        gitRun false (some d) now env gitLog fs repos :=
  ⟨invokedCmds_dryRepos env fs repos,
   (describedCmds_dryRepos env fs repos).trans (invokedCmds_liveRepos env hsafe fs repos).symm,
   fun _ _ _ => rfl⟩

theorem c2_dry_run_semantics_witness :
    LaunchSafe envOk ∧
      (invokedCmds (runRepos true envOk fsRepo [rAll]).1 = [] ∧
        describedCmds (runRepos true envOk fsRepo [rAll]).1 =
          invokedCmds (runRepos false envOk fsRepo [rAll]).1 ∧
        ∀ d now gitLog, gitRun true (some d) now envOk gitLog fsRepo [rAll] =
          gitRun false (some d) now envOk gitLog fsRepo [rAll]) :=
  ⟨launchSafe_envOk, c2_dry_run_semantics envOk fsRepo [rAll] launchSafe_envOk⟩

/-- C2 counterexample: with the dry-run flag set, a staleness-mode run
over one repository still performs a real `git log` subprocess
invocation — `_report_stale` never consults the dry-run flag, refuting
the claim for staleness mode. -/
theorem c2_stale_dry_run_counterexample :
    invokedCmds (gitRun true (some 30) 2592000 envOk glZero fsRepo [rDefault]).1 =
      [(gitLogCmd, ["repo"])] ∧
      invokedCmds (gitRun true (some 30) 2592000 envOk glZero fsRepo [rDefault]).1 ≠ [] := by
  constructor
  · decide
  · decide

/-- C3 counterexample: with `git pull` unlaunchable, processing the
first repository stops at the pull attempt — the enabled clean task and
the entire second repository are never processed, the launch failure
escapes as an uncaught exception, and no distinct failure outcome
appears in the trace. -/
theorem c3_launch_failure_counterexample :
    runRepos false envPullGone fsTwo [rPullClean, rRepo2] =
      ([Event.invoke (Cmd.args ["git", "pull"]) ["repo"]],
        some ⟨Cmd.args ["git", "pull"], ["repo"]⟩) := by
  decide

/-- C3 (amended): a process-launch failure is not caught by
`_run_command`: when the pull of a plan whose path is a directory
cannot be launched, the run aborts with that uncaught exception — no
LAUNCH_FAILED-style outcome is reported and neither the remaining
tasks of that repository nor any later repository is processed. -/
theorem c3_launch_failure_aborts (env : Env) (fs : FS) (r : RepoConfig)
    (rest : List RepoConfig) (hdir : fs.isDir r.path = true) (hpull : r.auto_pull = true)
    (hfail : env (Cmd.args ["git", "pull"]) r.path = LaunchOutcome.launchFailure) :
    runRepos false env fs (r :: rest) =
      ([Event.invoke (Cmd.args ["git", "pull"]) r.path],
        some ⟨Cmd.args ["git", "pull"], r.path⟩) := by
  simp [runRepos, hdir, processRepo, gitTasks, runGitTasks, hpull, runCmd, hfail, seqE]

theorem c3_launch_failure_aborts_witness :
    fsTwo.isDir rPullClean.path = true ∧ rPullClean.auto_pull = true ∧
      envPullGone (Cmd.args ["git", "pull"]) rPullClean.path = LaunchOutcome.launchFailure ∧
      runRepos false envPullGone fsTwo [rPullClean] =
        ([Event.invoke (Cmd.args ["git", "pull"]) rPullClean.path],
          some ⟨Cmd.args ["git", "pull"], rPullClean.path⟩) :=
  ⟨by decide, by decide, by decide,
   c3_launch_failure_aborts envPullGone fsTwo rPullClean [] (by decide) (by decide) (by decide)⟩

/-- C4: in a live run in which every command launches, the whole trace
is the concatenation of every repository's per-task traces and the run
finishes without an exception — a task's non-zero exit only contributes
a failure report carrying the captured stderr, so tasks after it and
all later repositories still execute. -/
theorem c4_command_failure_isolation (env : Env) (fs : FS) (repos : List RepoConfig)
    (hsafe : LaunchSafe env) :
    runRepos false env fs repos = (repos.flatMap (liveRepoTrace env fs), none) ∧
      ∀ c w res, env c w = LaunchOutcome.launched res → res.returncode ≠ 0 →
        liveTrace env c w = [Event.invoke c w, Event.cmdFailed c res.stderrText] := by
  refine ⟨runRepos_live env hsafe fs repos, fun c w res hres hrc => ?_⟩
  simp [liveTrace, hres, hrc]

theorem c4_command_failure_isolation_witness :
    LaunchSafe envPullErr ∧
      (runRepos false envPullErr fsTwo [rPullClean, rRepo2] =
          ([rPullClean, rRepo2].flatMap (liveRepoTrace envPullErr fsTwo), none) ∧
        ∀ c w res, envPullErr c w = LaunchOutcome.launched res → res.returncode ≠ 0 →
          liveTrace envPullErr c w = [Event.invoke c w, Event.cmdFailed c res.stderrText]) :=
  ⟨launchSafe_envPullErr,
   c4_command_failure_isolation envPullErr fsTwo [rPullClean, rRepo2] launchSafe_envPullErr⟩

/-- C5 counterexample: with threshold 30 days and `now = 2592000`, a
repository whose last commit is exactly at `now - 30*86400 = 0` (age
exactly the threshold, no submodule override) is NOT reported stale:
the code's test is the strict `last < cutoff`. -/
theorem c5_boundary_counterexample :
    reportStale 2592000 30 fsRepo glZero [rDefault] = [Event.invoke gitLogCmd ["repo"]] ∧
      Event.staleReport ["repo"] ∉ reportStale 2592000 30 fsRepo glZero [rDefault] := by
  constructor
  · decide
  · decide

/-- C5 (amended): for a repository without the submodule override, the
age rule is strict: it is flagged stale iff its last-commit timestamp
is strictly below `now - T*86400` (age strictly greater than T days);
exactly at the boundary it is not flagged on age alone, and any
strictly older commit is flagged. -/
theorem c5_strict_staleness_boundary (now d last : Int) (fs : FS)
    (gitLog : FsPath → Option Int) (r : RepoConfig) (hdir : fs.isDir r.path = true)
    (hq : gitLog r.path = some last) (hsub : r.update_submodules = false) :
    Event.staleReport r.path ∈ reportStale now d fs gitLog [r] ↔
      last < now - d * 86400 := by
  by_cases hlt : last < now - d * 86400 <;>
    simp [reportStale, hdir, hq, hsub, hlt]

theorem c5_strict_staleness_boundary_witness :
    fsRepo.isDir rDefault.path = true ∧ glZero rDefault.path = some 0 ∧
      rDefault.update_submodules = false ∧
      (Event.staleReport rDefault.path ∈ reportStale 2592001 30 fsRepo glZero [rDefault] ↔
        (0 : Int) < 2592001 - 30 * 86400) :=
  ⟨by decide, by decide, by decide,
   c5_strict_staleness_boundary 2592001 30 0 fsRepo glZero rDefault
     (by decide) (by decide) (by decide)⟩

/-- C6: in staleness mode, a plan with `updateSubmodules` enabled and a
`.gitmodules` file present at its (directory) path is reported stale
whatever its last-commit timestamp — in particular at any age below
the threshold. -/
theorem c6_submodule_override (now d last : Int) (fs : FS)
    (gitLog : FsPath → Option Int) (r : RepoConfig) (hdir : fs.isDir r.path = true)
    (hq : gitLog r.path = some last) (hsub : r.update_submodules = true)
    (hmod : fs.pathExists (r.path ++ [".gitmodules"]) = true) :
    Event.staleReport r.path ∈ reportStale now d fs gitLog [r] := by
  simp [reportStale, hdir, hq, hsub, hmod]

theorem c6_submodule_override_witness :
    fsRepoSub.isDir rSub.path = true ∧ glZero rSub.path = some 0 ∧
      rSub.update_submodules = true ∧
      fsRepoSub.pathExists (rSub.path ++ [".gitmodules"]) = true ∧
      Event.staleReport rSub.path ∈ reportStale 0 30 fsRepoSub glZero [rSub] :=
  ⟨by decide, by decide, by decide, by decide,
   c6_submodule_override 0 30 0 fsRepoSub glZero rSub
     (by decide) (by decide) (by decide) (by decide)⟩

/-- C7: a specifier containing a glob metacharacter is resolved by
listing the entries of its parent directory (home when that parent does
not exist): exactly those entries whose name matches the final path
component and which contain a `.git` subdirectory are kept (after
symlink resolution), non-repository matches are silently dropped, and
an entry with zero matches contributes zero plans without an error. -/
theorem c7_glob_resolution (fs : FS) (fm : String → String → Bool) (raw : String)
    (hglob : hasGlobChar raw = true) :
    (∀ p, p ∈ resolveEntryPaths fs fm raw ↔
        ∃ n ∈ fs.iterdir (globSearchRoot fs raw),
          fm n (pathName (expanduser fs.home raw)) = true ∧
          fs.isDir (globSearchRoot fs raw ++ [n, ".git"]) = true ∧
          p = fs.resolve (globSearchRoot fs raw ++ [n])) ∧
      (resolveEntryPaths fs fm raw = [] → ∀ e rest, e.path = some raw →
        buildRepos fs fm (e :: rest) = buildRepos fs fm rest) := by
  constructor
  · intro p
    simp only [resolveEntryPaths, hglob, if_true, globSearchRoot, List.mem_map,
      List.mem_filter, Bool.and_eq_true]
    constructor
    · rintro ⟨n, ⟨hn, hfm, hgit⟩, hp⟩
      exact ⟨n, hn, hfm, hgit, hp.symm⟩
    · rintro ⟨n, hn, hfm, hgit, hp⟩
      exact ⟨n, ⟨hn, hfm, hgit⟩, hp.symm⟩
  · intro hzero e rest hpath
    simp only [buildRepos, hpath, hzero, List.map_nil]
    cases hb : buildRepos fs fm rest <;> simp [hb]

theorem c7_glob_resolution_witness :
    hasGlobChar "~/dev/gp*" = true ∧
      ((∀ p, p ∈ resolveEntryPaths fsGlob fmGp "~/dev/gp*" ↔
          ∃ n ∈ fsGlob.iterdir (globSearchRoot fsGlob "~/dev/gp*"),
            fmGp n (pathName (expanduser fsGlob.home "~/dev/gp*")) = true ∧
            fsGlob.isDir (globSearchRoot fsGlob "~/dev/gp*" ++ [n, ".git"]) = true ∧
            p = fsGlob.resolve (globSearchRoot fsGlob "~/dev/gp*" ++ [n])) ∧
        (resolveEntryPaths fsGlob fmGp "~/dev/gp*" = [] → ∀ e rest, e.path = some "~/dev/gp*" →
          buildRepos fsGlob fmGp (e :: rest) = buildRepos fsGlob fmGp rest)) :=
  ⟨by decide, c7_glob_resolution fsGlob fmGp "~/dev/gp*" (by decide)⟩

/-- C8: a plan whose path is not currently a directory is skipped with
a reported warning: it contributes exactly the warning to the trace, no
task of it runs, the skip raises nothing, and the remaining plans
contribute exactly what they would contribute anyway. -/
theorem c8_missing_path_skipped (dryRun : Bool) (env : Env) (fs : FS) (r : RepoConfig)
    (rest : List RepoConfig) (hdir : fs.isDir r.path = false) :
    runRepos dryRun env fs (r :: rest) =
      (Event.pathWarning r.path :: (runRepos dryRun env fs rest).1,
        (runRepos dryRun env fs rest).2) := by
  simp only [runRepos, hdir, Bool.false_eq_true, if_false]
  rw [seqE_ok]
  rfl

theorem c8_missing_path_skipped_witness :
    fsNone.isDir rDefault.path = false ∧
      runRepos false envOk fsNone [rDefault, rRepo2] =
        (Event.pathWarning rDefault.path :: (runRepos false envOk fsNone [rRepo2]).1,
          (runRepos false envOk fsNone [rRepo2]).2) :=
  ⟨by decide, c8_missing_path_skipped false envOk fsNone rDefault [rRepo2] (by decide)⟩

/-- C9 counterexample: the literal (non-glob) specifier `/proj` names a
directory with no `.git` subdirectory, yet resolution yields a plan for
it, and a live housekeeping run then executes `git pull` there — the
`.git` requirement is neither checked at resolution time nor
re-validated before the plan's tasks execute. -/
theorem c9_no_git_check_counterexample :
    resolveEntryPaths fsProj fmNone "/proj" = [["proj"]] ∧
      fsProj.isDir ["proj", ".git"] = false ∧
      invokedCmds (runRepos false envOk fsProj [rProj]).1 =
        [(Cmd.args ["git", "pull"], ["proj"])] := by
  refine ⟨by decide, by decide, by decide⟩

/-- C9 (amended): only glob-derived plans satisfy the `.git`
requirement at resolution time; a literal specifier yields a plan
precisely when its expanded path is a directory, with no `.git` check
then or before execution (execution re-checks only that the path is a
directory). -/
theorem c9_git_check_only_for_globs (fs : FS) (fm : String → String → Bool) (raw : String) :
    (hasGlobChar raw = false →
        resolveEntryPaths fs fm raw =
          if fs.isDir (expanduser fs.home raw) then [fs.resolve (expanduser fs.home raw)]
          else []) ∧
      (hasGlobChar raw = true → ∀ p ∈ resolveEntryPaths fs fm raw,
        ∃ n, p = fs.resolve (globSearchRoot fs raw ++ [n]) ∧
          fs.isDir (globSearchRoot fs raw ++ [n, ".git"]) = true) := by
  constructor
  · intro hlit
    simp [resolveEntryPaths, hlit]
  · intro hglob p hp
    simp only [resolveEntryPaths, hglob, if_true, globSearchRoot, List.mem_map,
      List.mem_filter, Bool.and_eq_true] at hp
    obtain ⟨n, ⟨hn, hfm, hgit⟩, hpe⟩ := hp
    exact ⟨n, hpe.symm, hgit⟩

theorem c9_git_check_only_for_globs_witness :
    hasGlobChar "/proj" = false ∧
      resolveEntryPaths fsProj fmNone "/proj" =
        (if fsProj.isDir (expanduser fsProj.home "/proj") then
          [fsProj.resolve (expanduser fsProj.home "/proj")]
        else []) :=
  ⟨by decide, (c9_git_check_only_for_globs fsProj fmNone "/proj").1 (by decide)⟩

/-- C10: configuration inputs that pass the two fatal checks can still
crash the loader: a file parsing to `None` hits `data.get` and raises
`AttributeError`; a `repos` entry with no `path` key makes the
metacharacter scan raise `TypeError`; and the clean `sys.exit(1)` path
is taken exactly for a missing file or a YAML parse error. -/
theorem c10_loader_uncaught_exceptions (fs : FS) (fm : String → String → Bool) :
    load_from_file fs fm true (ParseOutcome.parsed YamlDoc.nullDoc) =
        LoadOutcome.uncaught PyExn.attributeError ∧
      (∀ e rest, e.path = none →
        load_from_file fs fm true (ParseOutcome.parsed (YamlDoc.dict (some (e :: rest)))) =
          LoadOutcome.uncaught PyExn.typeError) ∧
      (∀ fileExists parse code,
        load_from_file fs fm fileExists parse = LoadOutcome.fatalExit code →
          fileExists = false ∨ parse = ParseOutcome.yamlError) := by
  refine ⟨rfl, fun e rest hpath => ?_, fun fileExists parse code h => ?_⟩
  · simp [load_from_file, buildRepos, hpath]
  · cases fileExists
    · exact Or.inl rfl
    · cases parse with
      | yamlError => exact Or.inr rfl
      | parsed doc =>
        exfalso
        cases doc with
        | nullDoc => simp [load_from_file] at h
        | dict reposKey =>
          cases hb : buildRepos fs fm (reposKey.getD []) <;>
            simp [load_from_file, hb] at h

theorem c10_loader_uncaught_exceptions_witness :
    load_from_file fsNone fmNone true (ParseOutcome.parsed YamlDoc.nullDoc) =
        LoadOutcome.uncaught PyExn.attributeError ∧
      load_from_file fsNone fmNone true
          (ParseOutcome.parsed (YamlDoc.dict (some [{}]))) =
        LoadOutcome.uncaught PyExn.typeError ∧
      (false = false ∨ ParseOutcome.parsed YamlDoc.nullDoc = ParseOutcome.yamlError) :=
  ⟨(c10_loader_uncaught_exceptions fsNone fmNone).1,
   (c10_loader_uncaught_exceptions fsNone fmNone).2.1 {} [] rfl,
   (c10_loader_uncaught_exceptions fsNone fmNone).2.2 false
     (ParseOutcome.parsed YamlDoc.nullDoc) 1 rfl⟩

end GitAroundModel
